import Mathlib

/-!
# RBAC demo service — formal model and verification

Shallow embedding of the role-based access-control core of
`rbac-project/server/server.js`: the permission matrix `PERMISSIONS`, the
`authorize` middleware, the post update/delete route handlers with their
inline ownership checks, the registration route, and the admin role-change
route.  JavaScript objects used as string-keyed dictionaries are modelled as
association lists, JS `Array.findIndex` as an `Option Nat`-valued search,
JS string truthiness (`""` and `undefined` are falsy) explicitly, and
`new Date()` / `bcrypt.hashSync` as explicit parameters (they are external
to the decision logic).
-/

namespace RBAC

/-! ## Permission matrix (server.js lines 18–32) -/

abbrev Actions := List String
abbrev PermTable := List (String × Actions)

def ADMIN_PERMS : PermTable :=
  [("users", ["create", "read", "update", "delete"]),
   ("posts", ["create", "read", "update", "delete"]),
   ("admin", ["manage_roles"])]

def EDITOR_PERMS : PermTable :=
  [("posts", ["create", "read"]),
   ("self_posts", ["update", "delete"]),
   ("users", ["read"])]

def VIEWER_PERMS : PermTable :=
  [("posts", ["read"])]

def PERMISSIONS : List (String × PermTable) :=
  [("ADMIN", ADMIN_PERMS), ("EDITOR", EDITOR_PERMS), ("VIEWER", VIEWER_PERMS)]

/-- JS object property lookup (`obj[key]`, `undefined` ↦ `none`). -/
def lookupTab {α : Type} : List (String × α) → String → Option α
  | [], _ => none
  | (k, v) :: rest, key => if key = k then some v else lookupTab rest key

/-- Grant check `rolePermissions[resource] && rolePermissions[resource].includes(action)`
(server.js line 116 and line 124). -/
def hasAction (tbl : PermTable) (resource action : String) : Bool :=
  match lookupTab tbl resource with
  | some acts => acts.contains action
  | none => false

/-! ## The `authorize` middleware (server.js lines 103–149) -/

/-- Outcome of the `authorize(resource, action, isOwnerCheck)` middleware:
the distinct 403 for an unrecognized role (line 110), the ordinary 403
denial (line 146), or `next()` with the `req.isOwnerCheckRequired` flag
(lines 127, 131–132). -/
inductive MWResult where
  | invalidRole403
  | denied403
  | pass (isOwnerCheckRequired : Bool)
deriving DecidableEq, Repr

/-- The body of the `authorize` middleware.  `hasPermission` is the standard
grant (line 116) or, when `isOwnerCheck`, the `self_`-prefixed grant
(lines 121–129); the latter also sets `req.isOwnerCheckRequired`. -/
def authorizeMW (role resource action : String) (isOwnerCheck : Bool) : MWResult :=
  match lookupTab PERMISSIONS role with
  | none => .invalidRole403
  | some rolePermissions =>
      let std := hasAction rolePermissions resource action
      let own := isOwnerCheck && hasAction rolePermissions ("self_" ++ resource) action
      if std || own then .pass own else .denied403

/-- The spec's `Decision` value: `{allowed, ownershipCheckRequired}`. -/
structure Decision where
  allowed : Bool
  ownershipCheckRequired : Bool
deriving DecidableEq, Repr

/-- The decision the middleware communicates to the route handler:
`pass` means allowed, carrying the ownership flag; either 403 means denied. -/
def decisionOf : MWResult → Decision
  | .pass f => ⟨true, f⟩
  | _ => ⟨false, false⟩

/-- Gate decision `AuthorizationGate.decide` as implemented: the middleware's observable
decision. -/
def authorizeDecide (role resource action : String) (ownershipCapable : Bool) : Decision :=
  decisionOf (authorizeMW role resource action ownershipCapable)

/-! ## The spec's reference algorithm (for the refinement claim C1) -/

/-- The closed role set (`['ADMIN', 'EDITOR', 'VIEWER']`, server.js
lines 164 and 305). -/
def VALID_ROLES : List String := ["ADMIN", "EDITOR", "VIEWER"]

/-- Spec §4.1 `PermissionMatrix.allows`: pure unconditional-grant lookup. -/
def matrixAllows (role resource action : String) : Bool :=
  match lookupTab PERMISSIONS role with
  | some tbl => hasAction tbl resource action
  | none => false

/-- Spec §4.1 `PermissionMatrix.allowsSelfScoped`: the ownership-conditional
key variant. -/
def matrixAllowsSelfScoped (role resource action : String) : Bool :=
  matrixAllows role ("self_" ++ resource) action

/-- Modelled from the spec: the four-step `decide` algorithm of spec §4.2,
written from the spec's words, to be compared with `authorizeDecide`
(which is translated from the source). -/
def specDecide (role resource action : String) (ownershipCapable : Bool) : Decision :=
  if VALID_ROLES.contains role = false then ⟨false, false⟩
  else if matrixAllows role resource action then ⟨true, false⟩
  else if ownershipCapable && matrixAllowsSelfScoped role resource action then ⟨true, true⟩
  else ⟨false, false⟩

/-! ## String facts about the `self_` key prefix -/

theorem strData_append (a b : String) : (a ++ b).data = a.data ++ b.data := by
  cases a; cases b; rfl

theorem self_append_ne_users (r : String) : "self_" ++ r ≠ "users" := by
  intro h
  have hd : ("self_" ++ r).data = "users".data := by rw [h]
  rw [strData_append] at hd
  simp at hd

theorem self_append_ne_posts (r : String) : "self_" ++ r ≠ "posts" := by
  intro h
  have hd : ("self_" ++ r).data = "posts".data := by rw [h]
  rw [strData_append] at hd
  simp at hd

theorem self_append_ne_admin (r : String) : "self_" ++ r ≠ "admin" := by
  intro h
  have hd : ("self_" ++ r).data = "admin".data := by rw [h]
  rw [strData_append] at hd
  simp at hd

theorem self_append_eq_self_posts (r : String) :
    ("self_" ++ r = "self_posts") ↔ r = "posts" := by
  constructor
  · intro h
    have hd : ("self_" ++ r).data = "self_posts".data := by rw [h]
    rw [strData_append] at hd
    simp at hd
    exact String.ext hd
  · intro h; subst h; rfl

/-! ## Self-scoped lookups, per role -/

theorem hasAction_admin_self (r a : String) :
    hasAction ADMIN_PERMS ("self_" ++ r) a = false := by
  simp [hasAction, ADMIN_PERMS, lookupTab,
    self_append_ne_users r, self_append_ne_posts r, self_append_ne_admin r]

theorem hasAction_viewer_self (r a : String) :
    hasAction VIEWER_PERMS ("self_" ++ r) a = false := by
  simp [hasAction, VIEWER_PERMS, lookupTab, self_append_ne_posts r]

theorem hasAction_editor_self (r a : String) :
    hasAction EDITOR_PERMS ("self_" ++ r) a =
      (if r = "posts" then (["update", "delete"] : List String).contains a else false) := by
  by_cases hp : r = "posts"
  · subst hp
    have hsp : ("self_" ++ "posts" : String) = "self_posts" := rfl
    rw [hsp, if_pos rfl]
    simp [hasAction, EDITOR_PERMS, lookupTab]
  · rw [if_neg hp]
    have h1 : "self_" ++ r ≠ "posts" := self_append_ne_posts r
    have h2 : "self_" ++ r ≠ "self_posts" := fun h => hp ((self_append_eq_self_posts r).mp h)
    have h3 : "self_" ++ r ≠ "users" := self_append_ne_users r
    simp [hasAction, EDITOR_PERMS, lookupTab, h1, h2, h3]

/-- Within the actual matrix, no EDITOR unconditional grant overlaps a
self-scoped grant for the same (resource, action). -/
theorem editor_disjoint (resource action : String) :
    hasAction EDITOR_PERMS resource action = true →
    hasAction EDITOR_PERMS ("self_" ++ resource) action = false := by
  intro h
  rw [hasAction_editor_self]
  by_cases hp : resource = "posts"
  · subst hp
    rw [if_pos rfl]
    simp [hasAction, EDITOR_PERMS, lookupTab] at h
    rcases h with h | h <;> subst h <;> decide
  · rw [if_neg hp]

/-- When a role's permission table exists and (for the given resource and
action) the unconditional grant and the self-scoped grant never coexist,
the middleware's decision coincides with the spec's four-step algorithm. -/
theorem decide_role_eq (role : String) (tbl : PermTable)
    (hlook : lookupTab PERMISSIONS role = some tbl)
    (hvalid : VALID_ROLES.contains role = true)
    (resource action : String) (oc : Bool)
    (hdis : hasAction tbl resource action = true →
            hasAction tbl ("self_" ++ resource) action = false) :
    authorizeDecide role resource action oc = specDecide role resource action oc := by
  unfold authorizeDecide authorizeMW specDecide matrixAllowsSelfScoped
  rw [hlook, hvalid]
  cases hstd : hasAction tbl resource action <;>
    cases hself : hasAction tbl ("self_" ++ resource) action <;>
      cases oc <;> simp_all [decisionOf, matrixAllows, hlook]

/-- A role present in the matrix never yields the configuration-fault 403. -/
theorem authorizeMW_some_ne_invalid (role resource action : String) (oc : Bool)
    (tbl : PermTable) (hlook : lookupTab PERMISSIONS role = some tbl) :
    authorizeMW role resource action oc ≠ .invalidRole403 := by
  simp only [authorizeMW, hlook]
  split <;> simp

/-! ## Claim C1 -/

/-- C1: The authorization gate decision function follows the spec's
four-step algorithm for every input: the middleware's decision equals the
spec's `decide` on all roles, resources, actions, and ownership-capability
flags; moreover the configuration-fault outcome (the distinct
`Invalid Role Configuration` 403) occurs exactly when the role is outside
the closed role set. -/
theorem authorize_follows_spec_decide (role resource action : String) (oc : Bool) :
    authorizeDecide role resource action oc = specDecide role resource action oc ∧
    (authorizeMW role resource action oc = .invalidRole403 ↔
      VALID_ROLES.contains role = false) := by
  by_cases hA : role = "ADMIN"
  · subst hA
    refine ⟨decide_role_eq "ADMIN" ADMIN_PERMS rfl rfl resource action oc
      (fun _ => hasAction_admin_self resource action), ?_⟩
    simp [authorizeMW_some_ne_invalid "ADMIN" resource action oc ADMIN_PERMS rfl, VALID_ROLES]
  · by_cases hV : role = "VIEWER"
    · subst hV
      refine ⟨decide_role_eq "VIEWER" VIEWER_PERMS rfl rfl resource action oc
        (fun _ => hasAction_viewer_self resource action), ?_⟩
      simp [authorizeMW_some_ne_invalid "VIEWER" resource action oc VIEWER_PERMS rfl, VALID_ROLES]
    · by_cases hE : role = "EDITOR"
      · subst hE
        refine ⟨decide_role_eq "EDITOR" EDITOR_PERMS rfl rfl resource action oc
          (editor_disjoint resource action), ?_⟩
        simp [authorizeMW_some_ne_invalid "EDITOR" resource action oc EDITOR_PERMS rfl, VALID_ROLES]
      · have hlook : lookupTab PERMISSIONS role = none := by
          simp [PERMISSIONS, lookupTab, hA, hE, hV]
        have hcon : VALID_ROLES.contains role = false := by
          simp [VALID_ROLES, hA, hE, hV]
        have hmem : role ∉ VALID_ROLES := by
          simp [VALID_ROLES, hA, hE, hV]
        constructor
        · simp [authorizeDecide, authorizeMW, specDecide, hlook, hcon, hmem, decisionOf]
        · simp [authorizeMW, hlook, hcon, hmem]

/-- Witness for C1 at concrete inputs, covering the spec's scenarios:
EDITOR may create posts unconditionally, EDITOR's update is ownership
conditional, and an unknown role yields the configuration-fault denial. -/
theorem authorize_follows_spec_decide_witness :
    (authorizeDecide "EDITOR" "posts" "create" false =
      specDecide "EDITOR" "posts" "create" false) ∧
    authorizeDecide "EDITOR" "posts" "create" false = ⟨true, false⟩ ∧
    authorizeDecide "EDITOR" "posts" "update" true = ⟨true, true⟩ ∧
    authorizeDecide "VIEWER" "posts" "delete" true = ⟨false, false⟩ ∧
    (authorizeMW "SUPERADMIN" "posts" "read" false = .invalidRole403 ↔
      VALID_ROLES.contains "SUPERADMIN" = false) :=
  ⟨(authorize_follows_spec_decide "EDITOR" "posts" "create" false).1,
   by decide, by decide, by decide,
   (authorize_follows_spec_decide "SUPERADMIN" "posts" "read" false).2⟩

/-! ## Posts data model and `Array.findIndex` (server.js lines 13, 244, 274) -/

/-- A post record.  `new Date()` values are modelled as abstract `Nat`
timestamps supplied by the caller; `updatedAt` is absent until the first
update (the spread at line 261 adds it). -/
structure Post where
  id : Nat
  title : String
  content : String
  authorId : Nat
  author : String
  createdAt : Nat
  updatedAt : Option Nat := none
deriving DecidableEq, Repr, Inhabited

/-- Identity `req.user` as attached by the auth middleware (server.js lines 84–88). -/
structure Identity where
  id : Nat
  role : String
  username : String
deriving DecidableEq, Repr

/-- JS `Array.prototype.findIndex`, position-tracking helper. -/
def findIndexFrom {α : Type} (p : α → Bool) : List α → Nat → Option Nat
  | [], _ => none
  | x :: xs, i => if p x then some i else findIndexFrom p xs (i + 1)

/-- JS `Array.prototype.findIndex` (`-1` becomes `none`). -/
def findIndexJs {α : Type} (p : α → Bool) (l : List α) : Option Nat :=
  findIndexFrom p l 0

theorem findIndexFrom_spec {α : Type} (p : α → Bool) :
    ∀ (l : List α) (n i : Nat), findIndexFrom p l n = some i →
      n ≤ i ∧ ∃ h : i - n < l.length, p (l.get ⟨i - n, h⟩) = true := by
  intro l
  induction l with
  | nil => intro n i h; simp [findIndexFrom] at h
  | cons x xs ih =>
      intro n i h
      by_cases hx : p x = true
      · simp [findIndexFrom, hx] at h
        subst h
        exact ⟨Nat.le_refl n, by simpa using hx⟩
      · simp [findIndexFrom, hx] at h
        obtain ⟨hle, hlt, hp⟩ := ih (n + 1) i h
        refine ⟨Nat.le_of_succ_le hle, ?_⟩
        have hin : i - n = (i - (n + 1)) + 1 := by omega
        have hlt2 : i - n < (x :: xs).length := by
          simp [List.length_cons]; omega
        refine ⟨hlt2, ?_⟩
        have : (x :: xs).get ⟨i - n, hlt2⟩ = xs.get ⟨i - (n + 1), hlt⟩ := by
          simp [hin]
        rw [this]
        exact hp

theorem findIndexJs_some {α : Type} (p : α → Bool) (l : List α) (i : Nat)
    (h : findIndexJs p l = some i) :
    ∃ hi : i < l.length, p (l.get ⟨i, hi⟩) = true := by
  obtain ⟨-, hlt, hp⟩ := findIndexFrom_spec p l 0 i h
  simpa using ⟨hlt, hp⟩

/-! ## Post update / delete routes (server.js lines 242–288) -/

/-- JS `x || y` for a possibly-absent string body field: `undefined` and the
empty string are falsy (lines 263–264). -/
def jsOrStr (v : Option String) (dflt : String) : String :=
  match v with
  | some s => if s = "" then dflt else s
  | none => dflt

/-- The update request body (`req.body.title`, `req.body.content`);
`none` models an absent field. -/
structure UpdateBody where
  title : Option String := none
  content : Option String := none
deriving DecidableEq, Repr

/-- Responses of `PUT /api/posts/:id`: the middleware's two 403s, the 404,
the inline ownership 403 (line 255), or 200 with the updated post. -/
inductive UpdateResult where
  | invalidRoleConfig403
  | denied403
  | notFound404
  | ownerDenied403
  | ok (post : Post)
deriving DecidableEq, Repr

/-- The object spread at server.js lines 261–266:
`{...post, title: req.body.title || post.title, content: req.body.content
|| post.content, updatedAt: new Date()}`. -/
def updatedPost (body : UpdateBody) (post : Post) (now : Nat) : Post :=
  { post with
    title := jsOrStr body.title post.title
    content := jsOrStr body.content post.content
    updatedAt := some now }

/-- Route `PUT /api/posts/:id` (server.js lines 242–269), middleware included.
Returns the response together with the resulting posts store. -/
def updatePostRoute (user : Identity) (postIdParam : Nat) (body : UpdateBody)
    (posts : List Post) (now : Nat) : UpdateResult × List Post :=
  match authorizeMW user.role "posts" "update" true with
  | .invalidRole403 => (.invalidRoleConfig403, posts)
  | .denied403 => (.denied403, posts)
  | .pass ownerCheckRequired =>
      match findIndexJs (fun p => p.id == postIdParam) posts with
      | none => (.notFound404, posts)
      | some postIndex =>
          if ownerCheckRequired && (posts[postIndex]!).authorId != user.id then
            (.ownerDenied403, posts)
          else
            (.ok (updatedPost body posts[postIndex]! now),
             posts.set postIndex (updatedPost body posts[postIndex]! now))

/-- Responses of `DELETE /api/posts/:id`. -/
inductive DeleteResult where
  | invalidRoleConfig403
  | denied403
  | notFound404
  | ownerDenied403
  | ok
deriving DecidableEq, Repr

/-- Route `DELETE /api/posts/:id` (server.js lines 272–288), middleware included. -/
def deletePostRoute (user : Identity) (postIdParam : Nat)
    (posts : List Post) : DeleteResult × List Post :=
  match authorizeMW user.role "posts" "delete" true with
  | .invalidRole403 => (.invalidRoleConfig403, posts)
  | .denied403 => (.denied403, posts)
  | .pass ownerCheckRequired =>
      match findIndexJs (fun p => p.id == postIdParam) posts with
      | none => (.notFound404, posts)
      | some postIndex =>
          if ownerCheckRequired && (posts[postIndex]!).authorId != user.id then
            (.ownerDenied403, posts)
          else
            (.ok, posts.eraseIdx postIndex)

/-! ## The ownership resolver (spec §4.3) as implemented

The finalization of a gate decision against a concrete resource is
implemented jointly by the middleware short-circuit (a denied decision never
reaches the handler, lines 131–147) and the handlers' inline row-level check
(lines 251–257 and 281–284: `req.isOwnerCheckRequired && post.authorId !==
req.user.id` denies, anything else proceeds). -/
def resolve (decision : Decision) (resourceOwnerId identityId : Nat) : Bool :=
  if decision.allowed = false then false
  else if decision.ownershipCheckRequired && resourceOwnerId != identityId then false
  else true

/-- The update route's authorization outcome is exactly `resolve` applied to
the middleware's decision and the found post's owner: the route proceeds to
the store mutation iff `resolve` permits. -/
theorem updatePostRoute_resolve (user : Identity) (pid : Nat) (body : UpdateBody)
    (posts : List Post) (now : Nat) (i : Nat)
    (hfind : findIndexJs (fun p => p.id == pid) posts = some i) :
    ((∃ p', (updatePostRoute user pid body posts now).1 = .ok p') ↔
      resolve (authorizeDecide user.role "posts" "update" true)
        (posts[i]!).authorId user.id = true) := by
  unfold updatePostRoute authorizeDecide
  cases hmw : authorizeMW user.role "posts" "update" true with
  | invalidRole403 => simp [resolve, decisionOf]
  | denied403 => simp [resolve, decisionOf]
  | pass f =>
      rw [hfind]
      by_cases hown : f && (posts[i]!).authorId != user.id
      · simp [hown, resolve, decisionOf]
      · simp [hown, resolve, decisionOf]

/-! ## Claim C3 -/

/-- C3: The ownership resolver: a decision with
`ownershipCheckRequired = false` passes its `allowed` value through
unchanged regardless of owner match; a conditional grant (both flags true)
resolves to `resourceOwnerId == identityId`; a denied decision resolves
to `false`. -/
theorem resolve_matches_spec (d : Decision) (resourceOwnerId identityId : Nat) :
    (d.ownershipCheckRequired = false →
      resolve d resourceOwnerId identityId = d.allowed) ∧
    (d.allowed = true → d.ownershipCheckRequired = true →
      resolve d resourceOwnerId identityId = (resourceOwnerId == identityId)) ∧
    (d.allowed = false → resolve d resourceOwnerId identityId = false) := by
  obtain ⟨a, o⟩ := d
  refine ⟨?_, ?_, ?_⟩
  · intro h
    simp at h
    subst h
    cases a <;> simp [resolve]
  · intro h1 h2
    simp at h1 h2
    subst h1; subst h2
    by_cases he : resourceOwnerId = identityId <;> simp [resolve, he]
  · intro h
    simp at h
    subst h
    simp [resolve]

/-- Witness for C3 at concrete inputs. -/
theorem resolve_matches_spec_witness :
    resolve ⟨true, true⟩ 7 9 = (7 == 9) ∧
    resolve ⟨true, false⟩ 7 9 = true ∧
    resolve ⟨false, false⟩ 3 3 = false :=
  ⟨(resolve_matches_spec ⟨true, true⟩ 7 9).2.1 rfl rfl,
   (resolve_matches_spec ⟨true, false⟩ 7 9).1 rfl,
   (resolve_matches_spec ⟨false, false⟩ 3 3).2.2 rfl⟩

/-! ## Claim C4 -/

/-- C4: When the gate denies outright, the posts store is never
consulted: the route answers with a middleware 403, leaves the store
untouched, and its response is identical whatever the store contents —
an unauthorized caller cannot distinguish an existing post from a missing
one.  Stated for both id-addressed routes (update and delete). -/
theorem gate_denial_short_circuits (user : Identity) (pid : Nat) (body : UpdateBody)
    (posts posts2 : List Post) (now now2 : Nat) :
    ((authorizeDecide user.role "posts" "update" true).allowed = false →
      (updatePostRoute user pid body posts now).2 = posts ∧
      ((updatePostRoute user pid body posts now).1 = .invalidRoleConfig403 ∨
       (updatePostRoute user pid body posts now).1 = .denied403) ∧
      (updatePostRoute user pid body posts now).1 =
        (updatePostRoute user pid body posts2 now2).1) ∧
    ((authorizeDecide user.role "posts" "delete" true).allowed = false →
      (deletePostRoute user pid posts).2 = posts ∧
      ((deletePostRoute user pid posts).1 = .invalidRoleConfig403 ∨
       (deletePostRoute user pid posts).1 = .denied403) ∧
      (deletePostRoute user pid posts).1 = (deletePostRoute user pid posts2).1) := by
  constructor
  · intro h
    unfold authorizeDecide at h
    unfold updatePostRoute
    cases hmw : authorizeMW user.role "posts" "update" true with
    | invalidRole403 => simp
    | denied403 => simp
    | pass f => rw [hmw] at h; simp [decisionOf] at h
  · intro h
    unfold authorizeDecide at h
    unfold deletePostRoute
    cases hmw : authorizeMW user.role "posts" "delete" true with
    | invalidRole403 => simp
    | denied403 => simp
    | pass f => rw [hmw] at h; simp [decisionOf] at h

/-- Witness for C4: the spec's scenario — a VIEWER attempting
`posts:delete` (and `posts:update`) is denied with the store untouched,
on a store where the post exists and on one where it does not. -/
theorem gate_denial_short_circuits_witness :
    ((authorizeDecide "VIEWER" "posts" "update" true).allowed = false ∧
     (authorizeDecide "VIEWER" "posts" "delete" true).allowed = false) ∧
    ((updatePostRoute ⟨4, "VIEWER", "viewer"⟩ 1 ⟨none, none⟩
        [⟨1, "t", "c", 2, "editor1", 0, none⟩] 9).2 =
          [⟨1, "t", "c", 2, "editor1", 0, none⟩] ∧
     (updatePostRoute ⟨4, "VIEWER", "viewer"⟩ 1 ⟨none, none⟩
        [⟨1, "t", "c", 2, "editor1", 0, none⟩] 9).1 =
       (updatePostRoute ⟨4, "VIEWER", "viewer"⟩ 1 ⟨none, none⟩ [] 0).1) ∧
    ((deletePostRoute ⟨4, "VIEWER", "viewer"⟩ 1
        [⟨1, "t", "c", 2, "editor1", 0, none⟩]).2 =
          [⟨1, "t", "c", 2, "editor1", 0, none⟩] ∧
     (deletePostRoute ⟨4, "VIEWER", "viewer"⟩ 1
        [⟨1, "t", "c", 2, "editor1", 0, none⟩]).1 =
       (deletePostRoute ⟨4, "VIEWER", "viewer"⟩ 1 []).1) := by
  have hu : (authorizeDecide "VIEWER" "posts" "update" true).allowed = false := by decide
  have hd : (authorizeDecide "VIEWER" "posts" "delete" true).allowed = false := by decide
  have h1 := (gate_denial_short_circuits ⟨4, "VIEWER", "viewer"⟩ 1 ⟨none, none⟩
    [⟨1, "t", "c", 2, "editor1", 0, none⟩] [] 9 0).1 hu
  have h2 := (gate_denial_short_circuits ⟨4, "VIEWER", "viewer"⟩ 1 ⟨none, none⟩
    [⟨1, "t", "c", 2, "editor1", 0, none⟩] [] 9 0).2 hd
  exact ⟨⟨hu, hd⟩, ⟨h1.1, h1.2.2⟩, ⟨h2.1, h2.2.2⟩⟩

/-! ## Claim C5 -/

/-- C5: Under a conditional (ownership-check-required) grant, the 404
outcome occurs exactly when the post does not exist, an existing post with a
foreign owner yields the ownership 403, and the ownership 403 is reachable
only when the post exists.  Stated for both the update and the delete
route. -/
theorem ownership_mismatch_is_403_not_404 (user : Identity) (pid : Nat)
    (body : UpdateBody) (posts : List Post) (now : Nat)
    (hu : authorizeMW user.role "posts" "update" true = .pass true)
    (hd : authorizeMW user.role "posts" "delete" true = .pass true) :
    (((updatePostRoute user pid body posts now).1 = .notFound404 ↔
        findIndexJs (fun q => q.id == pid) posts = none) ∧
     (∀ i, findIndexJs (fun q => q.id == pid) posts = some i →
        (posts[i]!).authorId ≠ user.id →
        (updatePostRoute user pid body posts now).1 = .ownerDenied403) ∧
     ((updatePostRoute user pid body posts now).1 = .ownerDenied403 →
        (findIndexJs (fun q => q.id == pid) posts).isSome = true)) ∧
    (((deletePostRoute user pid posts).1 = .notFound404 ↔
        findIndexJs (fun q => q.id == pid) posts = none) ∧
     (∀ i, findIndexJs (fun q => q.id == pid) posts = some i →
        (posts[i]!).authorId ≠ user.id →
        (deletePostRoute user pid posts).1 = .ownerDenied403) ∧
     ((deletePostRoute user pid posts).1 = .ownerDenied403 →
        (findIndexJs (fun q => q.id == pid) posts).isSome = true)) := by
  constructor
  · unfold updatePostRoute
    rw [hu]
    cases hfind : findIndexJs (fun q => q.id == pid) posts with
    | none => simp
    | some i =>
        refine ⟨?_, ?_, ?_⟩
        · by_cases hown : ((posts[i]!).authorId != user.id) = true <;> simp [hown]
        · intro j hj hne
          cases hj
          have hb : ((posts[i]!).authorId != user.id) = true := by simpa using hne
          simp [hb]
        · intro _
          simp
  · unfold deletePostRoute
    rw [hd]
    cases hfind : findIndexJs (fun q => q.id == pid) posts with
    | none => simp
    | some i =>
        refine ⟨?_, ?_, ?_⟩
        · by_cases hown : ((posts[i]!).authorId != user.id) = true <;> simp [hown]
        · intro j hj hne
          cases hj
          have hb : ((posts[i]!).authorId != user.id) = true := by simpa using hne
          simp [hb]
        · intro _
          simp

/-- Witness for C5: EDITOR (conditional grant on `posts:update` and
`posts:delete`) against a store whose only post belongs to another editor —
ownership 403 when the post exists, 404 exactly when it does not. -/
theorem ownership_mismatch_is_403_not_404_witness :
    (authorizeMW "EDITOR" "posts" "update" true = .pass true ∧
     authorizeMW "EDITOR" "posts" "delete" true = .pass true) ∧
    (updatePostRoute ⟨2, "EDITOR", "editor1"⟩ 3 ⟨none, none⟩
       [⟨3, "t", "c", 5, "editor2", 0, none⟩] 9).1 = .ownerDenied403 ∧
    (deletePostRoute ⟨2, "EDITOR", "editor1"⟩ 3
       [⟨3, "t", "c", 5, "editor2", 0, none⟩]).1 = .ownerDenied403 ∧
    ((updatePostRoute ⟨2, "EDITOR", "editor1"⟩ 8 ⟨none, none⟩
       [⟨3, "t", "c", 5, "editor2", 0, none⟩] 9).1 = .notFound404 ↔
      findIndexJs (fun q => q.id == 8) [(⟨3, "t", "c", 5, "editor2", 0, none⟩ : Post)] = none) := by
  have hu : authorizeMW "EDITOR" "posts" "update" true = .pass true := by decide
  have hd : authorizeMW "EDITOR" "posts" "delete" true = .pass true := by decide
  have h1 := ownership_mismatch_is_403_not_404 ⟨2, "EDITOR", "editor1"⟩ 3 ⟨none, none⟩
    [⟨3, "t", "c", 5, "editor2", 0, none⟩] 9 hu hd
  have h2 := ownership_mismatch_is_403_not_404 ⟨2, "EDITOR", "editor1"⟩ 8 ⟨none, none⟩
    [⟨3, "t", "c", 5, "editor2", 0, none⟩] 9 hu hd
  refine ⟨⟨hu, hd⟩, ?_, ?_, h2.1.1⟩
  · exact h1.1.2.1 0 (by decide) (by decide)
  · exact h1.2.2.1 0 (by decide) (by decide)

/-! ## The successful-update case, in full (used by C9 and C10) -/

theorem updatePostRoute_ok_cases (user : Identity) (pid : Nat) (body : UpdateBody)
    (posts : List Post) (now : Nat) (p' : Post) (posts' : List Post)
    (h : updatePostRoute user pid body posts now = (.ok p', posts')) :
    ∃ i, findIndexJs (fun q => q.id == pid) posts = some i ∧
      ∃ hi : i < posts.length,
        p' = updatedPost body (posts.get ⟨i, hi⟩) now ∧
        posts' = posts.set i p' := by
  unfold updatePostRoute at h
  cases hmw : authorizeMW user.role "posts" "update" true with
  | invalidRole403 => rw [hmw] at h; simp at h
  | denied403 => rw [hmw] at h; simp at h
  | pass f =>
      rw [hmw] at h
      cases hfind : findIndexJs (fun q => q.id == pid) posts with
      | none => rw [hfind] at h; simp at h
      | some i =>
          rw [hfind] at h
          dsimp only at h
          by_cases hown : (f && ((posts[i]!).authorId != user.id)) = true
          · rw [if_pos hown] at h; simp at h
          · rw [if_neg hown] at h
            injection h with h1 h2
            injection h1 with h1
            obtain ⟨hi, -⟩ := findIndexJs_some _ _ _ hfind
            have hbang : posts[i]! = posts.get ⟨i, hi⟩ := by
              rw [getElem!_pos posts i hi]
              rfl
            rw [hbang] at h1 h2
            refine ⟨i, rfl, hi, h1.symm, ?_⟩
            rw [← h1]
            exact h2.symm

/-! ## Claim C9 -/

/-- C9: Frame property of a successful post update: the updated post
keeps its original `id`, `authorId`, `author`, and `createdAt`; the store
keeps its length; the updated post sits at the found index; every other
index is untouched. -/
theorem post_update_frame (user : Identity) (pid : Nat) (body : UpdateBody)
    (posts : List Post) (now : Nat) (p' : Post) (posts' : List Post)
    (h : updatePostRoute user pid body posts now = (.ok p', posts')) :
    posts'.length = posts.length ∧
    ∃ (i : Nat) (o : Post), posts[i]? = some o ∧
      p'.id = o.id ∧ p'.authorId = o.authorId ∧ p'.author = o.author ∧
      p'.createdAt = o.createdAt ∧
      posts'[i]? = some p' ∧
      ∀ j, j ≠ i → posts'[j]? = posts[j]? := by
  obtain ⟨i, hfind, hi, hp, hs⟩ := updatePostRoute_ok_cases user pid body posts now p' posts' h
  subst hs
  refine ⟨List.length_set .., i, posts.get ⟨i, hi⟩, ?_, ?_, ?_, ?_, ?_, ?_, ?_⟩
  · rw [List.getElem?_eq_getElem hi]
    rfl
  · simp [hp, updatedPost]
  · simp [hp, updatedPost]
  · simp [hp, updatedPost]
  · simp [hp, updatedPost]
  · rw [List.getElem?_set_self]
    exact hi
  · intro j hj
    rw [List.getElem?_set_ne (fun hh => hj hh.symm)]

/-- Witness for C9: an ADMIN updates the only post; id, author fields and
`createdAt` survive, the store length is unchanged. -/
theorem post_update_frame_witness :
    ([(⟨1, "T2", "c", 2, "editor1", 0, some 5⟩ : Post)] : List Post).length =
      [(⟨1, "t", "c", 2, "editor1", 0, none⟩ : Post)].length ∧
    ∃ (i : Nat) (o : Post), ([(⟨1, "t", "c", 2, "editor1", 0, none⟩ : Post)] : List Post)[i]? = some o ∧
      (⟨1, "T2", "c", 2, "editor1", 0, some 5⟩ : Post).id = o.id ∧
      (⟨1, "T2", "c", 2, "editor1", 0, some 5⟩ : Post).authorId = o.authorId ∧
      (⟨1, "T2", "c", 2, "editor1", 0, some 5⟩ : Post).author = o.author ∧
      (⟨1, "T2", "c", 2, "editor1", 0, some 5⟩ : Post).createdAt = o.createdAt ∧
      ([(⟨1, "T2", "c", 2, "editor1", 0, some 5⟩ : Post)] : List Post)[i]? =
        some ⟨1, "T2", "c", 2, "editor1", 0, some 5⟩ ∧
      ∀ j, j ≠ i →
        ([(⟨1, "T2", "c", 2, "editor1", 0, some 5⟩ : Post)] : List Post)[j]? =
          ([(⟨1, "t", "c", 2, "editor1", 0, none⟩ : Post)] : List Post)[j]? :=
  post_update_frame ⟨1, "ADMIN", "admin"⟩ 1 ⟨some "T2", some ""⟩
    [⟨1, "t", "c", 2, "editor1", 0, none⟩] 5
    ⟨1, "T2", "c", 2, "editor1", 0, some 5⟩
    [⟨1, "T2", "c", 2, "editor1", 0, some 5⟩] (by decide)

/-! ## Claim C10 -/

/-- C10: JS-truthiness update semantics: on a successful update each
field is `jsOrStr`-combined with the stored one — an absent (`none`) or
empty-string field leaves the stored value unchanged, and a nonempty
supplied value replaces it. -/
theorem post_update_truthy_fields (user : Identity) (pid : Nat) (body : UpdateBody)
    (posts : List Post) (now : Nat) (p' : Post) (posts' : List Post)
    (h : updatePostRoute user pid body posts now = (.ok p', posts')) :
    (∃ i, ∃ hi : i < posts.length,
       findIndexJs (fun q => q.id == pid) posts = some i ∧
       p'.title = jsOrStr body.title (posts.get ⟨i, hi⟩).title ∧
       p'.content = jsOrStr body.content (posts.get ⟨i, hi⟩).content) ∧
    (∀ d : String, jsOrStr none d = d) ∧
    (∀ d : String, jsOrStr (some "") d = d) ∧
    (∀ s d : String, s ≠ "" → jsOrStr (some s) d = s) := by
  obtain ⟨i, hfind, hi, hp, -⟩ := updatePostRoute_ok_cases user pid body posts now p' posts' h
  refine ⟨⟨i, hi, hfind, ?_, ?_⟩, fun d => rfl, fun d => rfl, fun s d hs => ?_⟩
  · simp [hp, updatedPost]
  · simp [hp, updatedPost]
  · simp [jsOrStr, hs]

/-- Witness for C10: updating with `title = ""` and an absent `content`
changes neither stored field (only `updatedAt`). -/
theorem post_update_truthy_fields_witness :
    (∃ i, ∃ hi : i < ([(⟨1, "t", "c", 2, "editor1", 0, none⟩ : Post)] : List Post).length,
       findIndexJs (fun q => q.id == 1)
         [(⟨1, "t", "c", 2, "editor1", 0, none⟩ : Post)] = some i ∧
       (⟨1, "t", "c", 2, "editor1", 0, some 5⟩ : Post).title =
         jsOrStr (some "")
           (([(⟨1, "t", "c", 2, "editor1", 0, none⟩ : Post)] : List Post).get ⟨i, hi⟩).title ∧
       (⟨1, "t", "c", 2, "editor1", 0, some 5⟩ : Post).content =
         jsOrStr none
           (([(⟨1, "t", "c", 2, "editor1", 0, none⟩ : Post)] : List Post).get ⟨i, hi⟩).content) ∧
    jsOrStr (some "x") "d" = "x" := by
  have hth := post_update_truthy_fields ⟨1, "ADMIN", "admin"⟩ 1 ⟨some "", none⟩
    [⟨1, "t", "c", 2, "editor1", 0, none⟩] 5
    ⟨1, "t", "c", 2, "editor1", 0, some 5⟩
    [⟨1, "t", "c", 2, "editor1", 0, some 5⟩] (by decide)
  exact ⟨hth.1, hth.2.2.2 "x" "d" (by decide)⟩

/-! ## Users, registration, and the admin role-change route -/

/-- A user record (server.js mock database, lines 12 and 40–45). -/
structure User where
  id : Nat
  username : String
  password : String
  role : String
  email : String
deriving DecidableEq, Repr, Inhabited

/-- The `seedDatabase` user seeding (server.js lines 40–45); `hash` stands for
the external `bcrypt.hashSync`. -/
def seedUsers (hash : String → String) : List User :=
  [⟨1, "admin", hash "admin123", "ADMIN", "admin@example.com"⟩,
   ⟨2, "editor1", hash "editor123", "EDITOR", "editor1@example.com"⟩,
   ⟨3, "editor2", hash "editor123", "EDITOR", "editor2@example.com"⟩,
   ⟨4, "viewer", hash "viewer123", "VIEWER", "viewer@example.com"⟩]

/-- JS truthiness of a possibly-absent string (`!x` is true for
`undefined` and `""`). -/
def truthyStr : Option String → Bool
  | some s => !(s == "")
  | none => false

/-- Check `['ADMIN', 'EDITOR', 'VIEWER'].includes(role)` where `role` may be
`undefined` (server.js line 164): `includes(undefined)` is false. -/
def includesOpt (l : List String) (v : Option String) : Bool :=
  match v with
  | some s => l.contains s
  | none => false

/-- The role stored at registration (server.js line 164): the requested
role when it is in the closed set, otherwise the default `VIEWER`. -/
def coerceRole (role : Option String) : String :=
  if includesOpt VALID_ROLES role then role.getD "VIEWER" else "VIEWER"

/-- Responses of `POST /api/auth/register` (the issued JWT is external and
omitted; the 200 body's `role`, `userId`, `username` are kept). -/
inductive RegisterResult where
  | badRequest400 (msg : String)
  | ok (role : String) (userId : Nat) (username : String)
deriving DecidableEq, Repr

/-- Route `POST /api/auth/register` (server.js lines 152–175).  Returns the
response, the users table, and the `nextUserId` counter. -/
def registerRoute (hash : String → String) (username password email role : Option String)
    (users : List User) (nextUserId : Nat) :
    RegisterResult × List User × Nat :=
  if !truthyStr username || !truthyStr password then
    (.badRequest400 "Username and password are required.", users, nextUserId)
  else
    if users.any (fun u => u.username == username.getD "") then
      (.badRequest400 "User already exists.", users, nextUserId)
    else
      (.ok (coerceRole role) nextUserId (username.getD ""),
       users ++ [{ id := nextUserId
                   username := username.getD ""
                   password := hash (password.getD "")
                   role := coerceRole role
                   email := jsOrStr email (username.getD "" ++ "@example.com") }],
       nextUserId + 1)

/-- The data carried by the role-change audit log line (server.js
line 316): target user id and username, acting admin id, old and new role.
The source log line carries no timestamp. -/
structure AuditEvent where
  targetUserId : Nat
  targetUsername : String
  actorId : Nat
  oldRole : String
  newRole : String
deriving DecidableEq, Repr

/-- Responses of `PUT /api/admin/users/:id/role`. -/
inductive RoleChangeResult where
  | invalidRoleConfig403
  | denied403
  | invalidRole400
  | notFound404
  | ok (message : String)
deriving DecidableEq, Repr

/-- Route `PUT /api/admin/users/:id/role` (server.js lines 301–319), middleware
included.  Returns the response, the users table, and the audit events
emitted during the call. -/
def changeRoleRoute (actor : Identity) (userIdParam : Nat) (newRole : Option String)
    (users : List User) : RoleChangeResult × List User × List AuditEvent :=
  match authorizeMW actor.role "admin" "manage_roles" false with
  | .invalidRole403 => (.invalidRoleConfig403, users, [])
  | .denied403 => (.denied403, users, [])
  | .pass _ =>
      match newRole with
      | none => (.invalidRole400, users, [])
      | some r =>
          if VALID_ROLES.contains r = false then
            (.invalidRole400, users, [])
          else
            match findIndexJs (fun u => u.id == userIdParam) users with
            | none => (.notFound404, users, [])
            | some userIndex =>
                (.ok ("Role updated to " ++ r ++ " for user " ++
                       (users[userIndex]!).username ++ "."),
                 users.set userIndex { users[userIndex]! with role := r },
                 [⟨userIdParam, (users[userIndex]!).username, actor.id,
                   (users[userIndex]!).role, r⟩])

/-! ## Substring occurrence (to state what a response message carries) -/

def startsWithCL : List Char → List Char → Bool
  | [], _ => true
  | _ :: _, [] => false
  | a :: as, b :: bs => a == b && startsWithCL as bs

def substrCL (pat : List Char) : List Char → Bool
  | [] => pat.isEmpty
  | c :: rest => startsWithCL pat (c :: rest) || substrCL pat rest

/-- Predicate `strOccurs s pat`: `pat` occurs contiguously in `s`. -/
def strOccurs (s pat : String) : Bool :=
  substrCL pat.data s.data

theorem startsWithCL_self_append (p t : List Char) : startsWithCL p (p ++ t) = true := by
  induction p with
  | nil => rfl
  | cons a as ih => simp [startsWithCL, ih]

theorem substrCL_split (a p b : List Char) : substrCL p (a ++ p ++ b) = true := by
  induction a with
  | nil =>
      cases p with
      | nil => cases b <;> simp [substrCL, startsWithCL]
      | cons c cs =>
          simp only [List.nil_append, substrCL, Bool.or_eq_true]
          left
          exact startsWithCL_self_append (c :: cs) b
  | cons x xs ih =>
      have hstep : substrCL p (((x :: xs) ++ p) ++ b) =
          (startsWithCL p (((x :: xs) ++ p) ++ b) || substrCL p ((xs ++ p) ++ b)) := rfl
      rw [hstep, ih]
      simp

theorem strAppend_assoc (a b c : String) : (a ++ b) ++ c = a ++ (b ++ c) := by
  apply String.ext
  simp [strData_append]

theorem strOccurs_mid (a p b : String) : strOccurs (a ++ (p ++ b)) p = true := by
  unfold strOccurs
  have h : (a ++ (p ++ b)).data = (a.data ++ p.data) ++ b.data := by
    rw [strData_append, strData_append, List.append_assoc]
  rw [h]
  exact substrCL_split a.data p.data b.data

/-! ## Claim C2 -/

/-- C2 counterexample: Registration does *not* reject a role outside
the closed set: registering with role `SUPERADMIN` succeeds and silently
stores `VIEWER` instead. -/
theorem register_coerces_invalid_role_cex :
    VALID_ROLES.contains "SUPERADMIN" = false ∧
    (registerRoute id (some "mallory") (some "pw") none (some "SUPERADMIN")
       (seedUsers id) 5).1 = .ok "VIEWER" 5 "mallory" ∧
    (registerRoute id (some "mallory") (some "pw") none (some "SUPERADMIN")
       (seedUsers id) 5).2.1 =
      seedUsers id ++ [⟨5, "mallory", "pw", "VIEWER", "mallory@example.com"⟩] := by
  decide

/-- C2 amended: Role mutation rejects a role outside the closed set
and leaves the user table untouched; user creation does not reject such a
role — it silently replaces it with the default `VIEWER` (the invalid value
itself is never stored). -/
theorem role_assignment_validation (actor : Identity) (uid : Nat)
    (newRole : Option String) (users : List User)
    (hash : String → String) (un pw em : Option String) (r : String) (nid : Nat)
    (hmut : includesOpt VALID_ROLES newRole = false)
    (hreg : VALID_ROLES.contains r = false) :
    ((changeRoleRoute actor uid newRole users).2.1 = users ∧
     ∀ msg, (changeRoleRoute actor uid newRole users).1 ≠ .ok msg) ∧
    ((registerRoute hash un pw em (some r) users nid).2.1 = users ∨
     ∃ u : User, (registerRoute hash un pw em (some r) users nid).2.1 = users ++ [u] ∧
       u.role = "VIEWER") := by
  constructor
  · unfold changeRoleRoute
    cases hmw : authorizeMW actor.role "admin" "manage_roles" false with
    | invalidRole403 => exact ⟨rfl, by simp⟩
    | denied403 => exact ⟨rfl, by simp⟩
    | pass f =>
        cases newRole with
        | none => exact ⟨rfl, by simp⟩
        | some r' =>
            simp only [includesOpt] at hmut
            have hmem : r' ∉ VALID_ROLES := by simpa using hmut
            simp [hmem]
  · unfold registerRoute
    split
    · left; rfl
    · split
      · left; rfl
      · right
        refine ⟨_, rfl, ?_⟩
        have hmem : r ∉ VALID_ROLES := by simpa using hreg
        simp [coerceRole, includesOpt, hmem]

/-- Witness for the amended C2 at concrete inputs: `SUPERADMIN` is rejected
by the mutation route with the table unchanged, and is replaced by `VIEWER`
at registration. -/
theorem role_assignment_validation_witness :
    (includesOpt VALID_ROLES (some "SUPERADMIN") = false ∧
     VALID_ROLES.contains "SUPERADMIN" = false) ∧
    (changeRoleRoute ⟨1, "ADMIN", "admin"⟩ 2 (some "SUPERADMIN") (seedUsers id)).2.1 =
      seedUsers id ∧
    ((registerRoute id (some "mallory") (some "pw") none (some "SUPERADMIN")
        (seedUsers id) 5).2.1 = seedUsers id ∨
     ∃ u : User,
       (registerRoute id (some "mallory") (some "pw") none (some "SUPERADMIN")
          (seedUsers id) 5).2.1 = seedUsers id ++ [u] ∧ u.role = "VIEWER") := by
  have h := role_assignment_validation ⟨1, "ADMIN", "admin"⟩ 2 (some "SUPERADMIN")
    (seedUsers id) id (some "mallory") (some "pw") none "SUPERADMIN" 5
    (by decide) (by decide)
  exact ⟨⟨by decide, by decide⟩, h.1.1, h.2⟩

/-! ## Claim C6 -/

/-- C6: A role mutation whose target role is outside the closed set is
rejected before any state change: the users table is exactly as before, no
audit event is emitted, and the call never reports success. -/
theorem invalid_role_mutation_no_state_change (actor : Identity) (uid : Nat)
    (newRole : Option String) (users : List User)
    (h : includesOpt VALID_ROLES newRole = false) :
    (changeRoleRoute actor uid newRole users).2.1 = users ∧
    (changeRoleRoute actor uid newRole users).2.2 = [] ∧
    ∀ msg, (changeRoleRoute actor uid newRole users).1 ≠ .ok msg := by
  unfold changeRoleRoute
  cases hmw : authorizeMW actor.role "admin" "manage_roles" false with
  | invalidRole403 => exact ⟨rfl, rfl, by simp⟩
  | denied403 => exact ⟨rfl, rfl, by simp⟩
  | pass f =>
      cases newRole with
      | none => exact ⟨rfl, rfl, by simp⟩
      | some r' =>
          simp only [includesOpt] at h
          have hmem : r' ∉ VALID_ROLES := by simpa using h
          simp [hmem]

/-- Witness for C6: an authorized ADMIN submits the unknown role
`SUPERADMIN`; the call answers 400 and nothing changes. -/
theorem invalid_role_mutation_no_state_change_witness :
    includesOpt VALID_ROLES (some "SUPERADMIN") = false ∧
    (changeRoleRoute ⟨1, "ADMIN", "admin"⟩ 2 (some "SUPERADMIN") (seedUsers id)).2.1 =
      seedUsers id ∧
    (changeRoleRoute ⟨1, "ADMIN", "admin"⟩ 2 (some "SUPERADMIN") (seedUsers id)).2.2 = [] ∧
    (changeRoleRoute ⟨1, "ADMIN", "admin"⟩ 2 (some "SUPERADMIN") (seedUsers id)).1 =
      .invalidRole400 := by
  have h := invalid_role_mutation_no_state_change ⟨1, "ADMIN", "admin"⟩ 2
    (some "SUPERADMIN") (seedUsers id) (by decide)
  exact ⟨by decide, h.1, h.2.1, by decide⟩

/-! ## Claim C7 -/

/-- C7 counterexample: A successful role mutation (ADMIN changes
editor1 from EDITOR to VIEWER) emits one audit event with the previous and
new role, but the 200 response does *not* carry the previous role: its
message mentions only the new role. -/
theorem role_change_response_lacks_previous_role :
    (changeRoleRoute ⟨1, "ADMIN", "admin"⟩ 2 (some "VIEWER") (seedUsers id)).1 =
      .ok "Role updated to VIEWER for user editor1." ∧
    (changeRoleRoute ⟨1, "ADMIN", "admin"⟩ 2 (some "VIEWER") (seedUsers id)).2.2 =
      [⟨2, "editor1", 1, "EDITOR", "VIEWER"⟩] ∧
    strOccurs "Role updated to VIEWER for user editor1." "EDITOR" = false ∧
    strOccurs "Role updated to VIEWER for user editor1." "VIEWER" = true := by
  decide

/-- C7 amended: Every successful role mutation emits exactly one
audit event carrying the previous role, the new role, the acting identity,
and the target user (the source's audit log line has no timestamp field),
and returns a 200 response whose message carries the new role — the
previous role appears only in the audit event, not in the response. -/
theorem role_change_audit_amended (actor : Identity) (uid : Nat) (r : String)
    (users : List User) (msg : String) (users' : List User) (evs : List AuditEvent)
    (h : changeRoleRoute actor uid (some r) users = (.ok msg, users', evs)) :
    ∃ i, findIndexJs (fun u => u.id == uid) users = some i ∧
      ∃ hi : i < users.length,
        evs = [⟨uid, (users.get ⟨i, hi⟩).username, actor.id,
               (users.get ⟨i, hi⟩).role, r⟩] ∧
        msg = "Role updated to " ++ r ++ " for user " ++
              (users.get ⟨i, hi⟩).username ++ "." ∧
        strOccurs msg r = true ∧
        users' = users.set i { users.get ⟨i, hi⟩ with role := r } := by
  unfold changeRoleRoute at h
  cases hmw : authorizeMW actor.role "admin" "manage_roles" false with
  | invalidRole403 => rw [hmw] at h; simp at h
  | denied403 => rw [hmw] at h; simp at h
  | pass f =>
      rw [hmw] at h
      dsimp only at h
      by_cases hr : VALID_ROLES.contains r = false
      · rw [if_pos hr] at h
        simp at h
      · rw [if_neg hr] at h
        cases hfind : findIndexJs (fun u => u.id == uid) users with
        | none => rw [hfind] at h; simp at h
        | some i =>
            rw [hfind] at h
            dsimp only at h
            injection h with h1 h2
            injection h2 with h2 h3
            injection h1 with h1
            obtain ⟨hi, -⟩ := findIndexJs_some _ _ _ hfind
            have hbang : users[i]! = users.get ⟨i, hi⟩ := by
              rw [getElem!_pos users i hi]
              rfl
            rw [hbang] at h1 h2 h3
            refine ⟨i, rfl, hi, h3.symm, h1.symm, ?_, h2.symm⟩
            rw [← h1]
            have hassoc :
                "Role updated to " ++ r ++ " for user " ++
                    (users.get ⟨i, hi⟩).username ++ "." =
                  "Role updated to " ++
                    (r ++ (" for user " ++ ((users.get ⟨i, hi⟩).username ++ "."))) := by
              simp [strAppend_assoc]
            rw [hassoc]
            exact strOccurs_mid _ _ _

/-- Witness for the amended C7: the EDITOR→VIEWER scenario on the seeded
table. -/
theorem role_change_audit_amended_witness :
    ∃ i, findIndexJs (fun u => u.id == 2) (seedUsers id) = some i ∧
      ∃ hi : i < (seedUsers id).length,
        [(⟨2, "editor1", 1, "EDITOR", "VIEWER"⟩ : AuditEvent)] =
          [⟨2, ((seedUsers id).get ⟨i, hi⟩).username, 1,
            ((seedUsers id).get ⟨i, hi⟩).role, "VIEWER"⟩] ∧
        "Role updated to VIEWER for user editor1." =
          "Role updated to " ++ "VIEWER" ++ " for user " ++
            ((seedUsers id).get ⟨i, hi⟩).username ++ "." ∧
        strOccurs "Role updated to VIEWER for user editor1." "VIEWER" = true ∧
        [⟨1, "admin", "admin123", "ADMIN", "admin@example.com"⟩,
         ⟨2, "editor1", "editor123", "VIEWER", "editor1@example.com"⟩,
         ⟨3, "editor2", "editor123", "EDITOR", "editor2@example.com"⟩,
         ⟨4, "viewer", "viewer123", "VIEWER", "viewer@example.com"⟩] =
          (seedUsers id).set i
            { (seedUsers id).get ⟨i, hi⟩ with role := "VIEWER" } := by
  have h := role_change_audit_amended ⟨1, "ADMIN", "admin"⟩ 2 "VIEWER" (seedUsers id)
    "Role updated to VIEWER for user editor1."
    [⟨1, "admin", "admin123", "ADMIN", "admin@example.com"⟩,
     ⟨2, "editor1", "editor123", "VIEWER", "editor1@example.com"⟩,
     ⟨3, "editor2", "editor123", "EDITOR", "editor2@example.com"⟩,
     ⟨4, "viewer", "viewer123", "VIEWER", "viewer@example.com"⟩]
    [⟨2, "editor1", 1, "EDITOR", "VIEWER"⟩] (by decide)
  obtain ⟨i, hfind, hi, he, hm, hs, hu⟩ := h
  exact ⟨i, hfind, hi, he.symm ▸ rfl, hm, hs, hu⟩

/-! ## Claim C8: concurrent role mutations under step-level interleaving

The role-change handler touches the shared `users` table in exactly two
steps: the `findIndex` read (server.js line 309) and the single role write
(line 313) — the middleware check, the role validation, the audit log, and
the response do not read or write the table.  Two concurrent in-flight
mutations are modelled as two such threads whose atomic steps a schedule
interleaves arbitrarily; this is strictly more adversarial than the
Node.js event loop, which runs each synchronous handler to completion. -/

/-- One in-flight `changeRole` mutation: its target user id and the role it
writes. -/
structure RoleWriteThread where
  targetId : Nat
  newRole : String
deriving DecidableEq, Repr

/-- Thread-local state: program counter (0 = before the `findIndex` read,
1 = before the role write, 2 = done) and the saved `userIndex`. -/
structure ThreadState where
  pc : Nat
  idx : Option Nat
deriving DecidableEq, Repr

def initThread : ThreadState := ⟨0, none⟩

/-- The write at server.js line 313: `users[userIndex].role = newRole`. -/
def setRole (users : List User) (i : Nat) (r : String) : List User :=
  users.set i { users[i]! with role := r }

/-- One atomic step of a mutation thread against the shared table. -/
def threadStep (t : RoleWriteThread) (s : ThreadState) (users : List User) :
    ThreadState × List User :=
  if s.pc = 0 then
    (⟨1, findIndexJs (fun u => u.id == t.targetId) users⟩, users)
  else if s.pc = 1 then
    (⟨2, s.idx⟩,
     match s.idx with
     | some i => setRole users i t.newRole
     | none => users)
  else (s, users)

/-- Run a schedule: `true` steps thread 1, `false` steps thread 2. -/
def runSched (t1 t2 : RoleWriteThread) :
    List Bool → ThreadState → ThreadState → List User →
      ThreadState × ThreadState × List User
  | [], s1, s2, users => (s1, s2, users)
  | true :: rest, s1, s2, users =>
      runSched t1 t2 rest (threadStep t1 s1 users).1 s2 (threadStep t1 s1 users).2
  | false :: rest, s1, s2, users =>
      runSched t1 t2 rest s1 (threadStep t2 s2 users).1 (threadStep t2 s2 users).2

/-! ### findIndex stability and set-set algebra -/

theorem findIndexFrom_congr {α β : Type} (p : α → Bool) (q : β → Bool) :
    ∀ (l1 : List α) (l2 : List β), l1.map p = l2.map q →
      ∀ n, findIndexFrom p l1 n = findIndexFrom q l2 n := by
  intro l1
  induction l1 with
  | nil =>
      intro l2 h n
      cases l2 with
      | nil => rfl
      | cons y ys => simp at h
  | cons x xs ih =>
      intro l2 h n
      cases l2 with
      | nil => simp at h
      | cons y ys =>
          simp only [List.map_cons, List.cons.injEq] at h
          obtain ⟨hxy, hrest⟩ := h
          unfold findIndexFrom
          rw [hxy]
          by_cases hq : q y = true
          · rw [if_pos hq, if_pos hq]
          · rw [if_neg hq, if_neg hq]
            exact ih ys hrest (n + 1)

theorem set_getElem?_self {γ : Type} :
    ∀ (l : List γ) (i : Nat) (v : γ), l[i]? = some v → l.set i v = l := by
  intro l
  induction l with
  | nil => intro i v h; simp at h
  | cons x xs ih =>
      intro i v h
      cases i with
      | zero =>
          simp at h
          subst h
          rfl
      | succ n =>
          simp only [List.getElem?_cons_succ] at h
          simp [List.set, ih n v h]

/-- Writing a role does not change any user id, so id-keyed `findIndex`
results are stable under `setRole`. -/
theorem map_id_setRole (users : List User) (i : Nat) (r : String) (uid : Nat)
    (hi : i < users.length) :
    (setRole users i r).map (fun u => u.id == uid) =
      users.map (fun u => u.id == uid) := by
  unfold setRole
  rw [List.map_set]
  apply set_getElem?_self
  have hbang : users[i]! = users.get ⟨i, hi⟩ := by
    rw [getElem!_pos users i hi]
    rfl
  rw [List.getElem?_map, List.getElem?_eq_getElem hi]
  simp [hbang]

theorem findIndexJs_setRole (users : List User) (i : Nat) (r : String) (uid : Nat)
    (hi : i < users.length) :
    findIndexJs (fun u => u.id == uid) (setRole users i r) =
      findIndexJs (fun u => u.id == uid) users := by
  unfold findIndexJs
  exact findIndexFrom_congr _ _ _ _ (map_id_setRole users i r uid hi) 0

theorem setRole_length (users : List User) (i : Nat) (r : String) :
    (setRole users i r).length = users.length := by
  unfold setRole
  exact List.length_set ..

/-- Two writes to the same record: the later one wins. -/
theorem setRole_setRole (users : List User) (i : Nat) (r r' : String)
    (hi : i < users.length) :
    setRole (setRole users i r) i r' = setRole users i r' := by
  unfold setRole
  have hlen : i < (users.set i { users[i]! with role := r }).length := by
    simpa using hi
  have hb : (users.set i { users[i]! with role := r })[i]! =
      { users[i]! with role := r } := by
    rw [getElem!_pos (users.set i { users[i]! with role := r }) i hlen]
    exact List.getElem_set_self ..
  rw [hb, List.set_set]

/-- Writes to distinct records commute. -/
theorem setRole_comm (users : List User) (i j : Nat) (r r' : String)
    (hij : i ≠ j) (hi : i < users.length) (hj : j < users.length) :
    setRole (setRole users i r) j r' = setRole (setRole users j r') i r := by
  unfold setRole
  have hb1 : (users.set i { users[i]! with role := r })[j]! = users[j]! := by
    rw [getElem!_pos (users.set i { users[i]! with role := r }) j (by simpa using hj),
      getElem!_pos users j hj]
    exact List.getElem_set_ne hij ..
  have hb2 : (users.set j { users[j]! with role := r' })[i]! = users[i]! := by
    rw [getElem!_pos (users.set j { users[j]! with role := r' }) i (by simpa using hi),
      getElem!_pos users i hi]
    exact List.getElem_set_ne (Ne.symm hij) ..
  rw [hb1, hb2]
  exact List.set_comm _ _ _ hij

/-! ### Program-counter progress -/

theorem threadStep_pc (t : RoleWriteThread) (s : ThreadState) (users : List User) :
    min (s.pc + 1) 2 ≤ (threadStep t s users).1.pc := by
  unfold threadStep
  by_cases h0 : s.pc = 0
  · rw [if_pos h0]
    dsimp
    omega
  · by_cases h1 : s.pc = 1
    · rw [if_neg h0, if_pos h1]
      dsimp
      omega
    · rw [if_neg h0, if_neg h1]
      dsimp
      omega

theorem runSched_pc1 (t1 t2 : RoleWriteThread) :
    ∀ (sched : List Bool) (s1 s2 : ThreadState) (users : List User),
      min (s1.pc + sched.count true) 2 ≤ (runSched t1 t2 sched s1 s2 users).1.pc := by
  intro sched
  induction sched with
  | nil =>
      intro s1 s2 users
      simp only [runSched, List.count_nil, Nat.add_zero]
      exact Nat.min_le_left ..
  | cons b rest ih =>
      intro s1 s2 users
      cases b
      · have h := ih s1 (threadStep t2 s2 users).1 (threadStep t2 s2 users).2
        have hcount : (false :: rest).count true = rest.count true := by simp
        simp only [runSched]
        rw [hcount]
        exact h
      · have hstep := threadStep_pc t1 s1 users
        have h := ih (threadStep t1 s1 users).1 s2 (threadStep t1 s1 users).2
        have hcount : (true :: rest).count true = rest.count true + 1 := by simp
        simp only [runSched]
        rw [hcount]
        omega

theorem runSched_pc2 (t1 t2 : RoleWriteThread) :
    ∀ (sched : List Bool) (s1 s2 : ThreadState) (users : List User),
      min (s2.pc + sched.count false) 2 ≤ (runSched t1 t2 sched s1 s2 users).2.1.pc := by
  intro sched
  induction sched with
  | nil =>
      intro s1 s2 users
      simp only [runSched, List.count_nil, Nat.add_zero]
      exact Nat.min_le_left ..
  | cons b rest ih =>
      intro s1 s2 users
      cases b
      · have hstep := threadStep_pc t2 s2 users
        have h := ih s1 (threadStep t2 s2 users).1 (threadStep t2 s2 users).2
        have hcount : (false :: rest).count false = rest.count false + 1 := by simp
        simp only [runSched]
        rw [hcount]
        omega
      · have h := ih (threadStep t1 s1 users).1 s2 (threadStep t1 s1 users).2
        have hcount : (true :: rest).count false = rest.count false := by simp
        simp only [runSched]
        rw [hcount]
        exact h

/-! ### Interleaving invariants -/

/-- Invariant for two threads mutating the *same* user record (at index
`i0` of the original table): the table is the original or the original with
that single record's role rewritten by whichever thread has already
written. -/
def SameUserInv (t1 t2 : RoleWriteThread) (users0 : List User) (i0 : Nat)
    (s1 s2 : ThreadState) (users : List User) : Prop :=
  (s1.pc = 1 → s1.idx = some i0) ∧
  (s2.pc = 1 → s2.idx = some i0) ∧
  ((users = users0 ∧ s1.pc ≤ 1 ∧ s2.pc ≤ 1) ∨
   (users = setRole users0 i0 t1.newRole ∧ 2 ≤ s1.pc) ∨
   (users = setRole users0 i0 t2.newRole ∧ 2 ≤ s2.pc))

theorem sameUser_step1 (t1 t2 : RoleWriteThread) (uid : Nat) (users0 : List User)
    (i0 : Nat) (h1 : t1.targetId = uid)
    (hfind : findIndexJs (fun u => u.id == uid) users0 = some i0)
    (hlen : i0 < users0.length)
    (s1 s2 : ThreadState) (users : List User)
    (hinv : SameUserInv t1 t2 users0 i0 s1 s2 users) :
    SameUserInv t1 t2 users0 i0 (threadStep t1 s1 users).1 s2
      (threadStep t1 s1 users).2 := by
  obtain ⟨hi1, hi2, hd⟩ := hinv
  by_cases hpc0 : s1.pc = 0
  · unfold threadStep
    rw [if_pos hpc0]
    dsimp only
    refine ⟨?_, hi2, ?_⟩
    · intro _
      show findIndexJs (fun u => u.id == t1.targetId) users = some i0
      rw [h1]
      rcases hd with h | h | h
      · rw [h.1]; exact hfind
      · rw [h.1, findIndexJs_setRole users0 i0 _ uid hlen]; exact hfind
      · rw [h.1, findIndexJs_setRole users0 i0 _ uid hlen]; exact hfind
    · rcases hd with h | h | h
      · exact Or.inl ⟨h.1, by simp, h.2.2⟩
      · exact absurd h.2 (by omega)
      · exact Or.inr (Or.inr h)
  · by_cases hpc1 : s1.pc = 1
    · have hidx := hi1 hpc1
      unfold threadStep
      rw [if_neg hpc0, if_pos hpc1, hidx]
      dsimp only
      refine ⟨?_, hi2, ?_⟩
      · intro hcon
        simp at hcon
      · rcases hd with h | h | h
        · exact Or.inr (Or.inl ⟨by rw [h.1], by simp⟩)
        · exact absurd h.2 (by omega)
        · refine Or.inr (Or.inl ⟨?_, by simp⟩)
          rw [h.1]
          exact setRole_setRole users0 i0 _ _ hlen
    · unfold threadStep
      rw [if_neg hpc0, if_neg hpc1]
      exact ⟨hi1, hi2, hd⟩

theorem sameUser_step2 (t1 t2 : RoleWriteThread) (uid : Nat) (users0 : List User)
    (i0 : Nat) (h2 : t2.targetId = uid)
    (hfind : findIndexJs (fun u => u.id == uid) users0 = some i0)
    (hlen : i0 < users0.length)
    (s1 s2 : ThreadState) (users : List User)
    (hinv : SameUserInv t1 t2 users0 i0 s1 s2 users) :
    SameUserInv t1 t2 users0 i0 s1 (threadStep t2 s2 users).1
      (threadStep t2 s2 users).2 := by
  obtain ⟨hi1, hi2, hd⟩ := hinv
  by_cases hpc0 : s2.pc = 0
  · unfold threadStep
    rw [if_pos hpc0]
    dsimp only
    refine ⟨hi1, ?_, ?_⟩
    · intro _
      show findIndexJs (fun u => u.id == t2.targetId) users = some i0
      rw [h2]
      rcases hd with h | h | h
      · rw [h.1]; exact hfind
      · rw [h.1, findIndexJs_setRole users0 i0 _ uid hlen]; exact hfind
      · rw [h.1, findIndexJs_setRole users0 i0 _ uid hlen]; exact hfind
    · rcases hd with h | h | h
      · exact Or.inl ⟨h.1, h.2.1, by simp⟩
      · exact Or.inr (Or.inl h)
      · exact absurd h.2 (by omega)
  · by_cases hpc1 : s2.pc = 1
    · have hidx := hi2 hpc1
      unfold threadStep
      rw [if_neg hpc0, if_pos hpc1, hidx]
      dsimp only
      refine ⟨hi1, ?_, ?_⟩
      · intro hcon
        simp at hcon
      · rcases hd with h | h | h
        · exact Or.inr (Or.inr ⟨by rw [h.1], by simp⟩)
        · refine Or.inr (Or.inr ⟨?_, by simp⟩)
          rw [h.1]
          exact setRole_setRole users0 i0 _ _ hlen
        · exact absurd h.2 (by omega)
    · unfold threadStep
      rw [if_neg hpc0, if_neg hpc1]
      exact ⟨hi1, hi2, hd⟩

theorem runSched_sameUser (t1 t2 : RoleWriteThread) (uid : Nat) (users0 : List User)
    (i0 : Nat) (h1 : t1.targetId = uid) (h2 : t2.targetId = uid)
    (hfind : findIndexJs (fun u => u.id == uid) users0 = some i0)
    (hlen : i0 < users0.length) :
    ∀ (sched : List Bool) (s1 s2 : ThreadState) (users : List User),
      SameUserInv t1 t2 users0 i0 s1 s2 users →
      SameUserInv t1 t2 users0 i0
        (runSched t1 t2 sched s1 s2 users).1
        (runSched t1 t2 sched s1 s2 users).2.1
        (runSched t1 t2 sched s1 s2 users).2.2 := by
  intro sched
  induction sched with
  | nil => intro s1 s2 users h; exact h
  | cons b rest ih =>
      intro s1 s2 users h
      cases b
      · exact ih _ _ _ (sameUser_step2 t1 t2 uid users0 i0 h2 hfind hlen s1 s2 users h)
      · exact ih _ _ _ (sameUser_step1 t1 t2 uid users0 i0 h1 hfind hlen s1 s2 users h)

/-- Invariant for two threads mutating *different* user records (indices
`i1 ≠ i2`). -/
def DiffInv (t1 t2 : RoleWriteThread) (users0 : List User) (i1 i2 : Nat)
    (s1 s2 : ThreadState) (users : List User) : Prop :=
  (s1.pc = 1 → s1.idx = some i1) ∧
  (s2.pc = 1 → s2.idx = some i2) ∧
  ((users = users0 ∧ s1.pc ≤ 1 ∧ s2.pc ≤ 1) ∨
   (users = setRole users0 i1 t1.newRole ∧ 2 ≤ s1.pc ∧ s2.pc ≤ 1) ∨
   (users = setRole users0 i2 t2.newRole ∧ s1.pc ≤ 1 ∧ 2 ≤ s2.pc) ∨
   (users = setRole (setRole users0 i1 t1.newRole) i2 t2.newRole ∧
     2 ≤ s1.pc ∧ 2 ≤ s2.pc))

theorem diff_find_stable (users0 : List User) (i1 i2 : Nat) (r1 r2 : String)
    (uid : Nat) (hl1 : i1 < users0.length) (hl2 : i2 < users0.length) :
    findIndexJs (fun u => u.id == uid)
        (setRole (setRole users0 i1 r1) i2 r2) =
      findIndexJs (fun u => u.id == uid) users0 := by
  rw [findIndexJs_setRole _ i2 r2 uid (by rw [setRole_length]; exact hl2),
    findIndexJs_setRole users0 i1 r1 uid hl1]

theorem diff_step1 (t1 t2 : RoleWriteThread) (users0 : List User) (i1 i2 : Nat)
    (hf1 : findIndexJs (fun u => u.id == t1.targetId) users0 = some i1)
    (hl1 : i1 < users0.length) (hl2 : i2 < users0.length) (hne : i1 ≠ i2)
    (s1 s2 : ThreadState) (users : List User)
    (hinv : DiffInv t1 t2 users0 i1 i2 s1 s2 users) :
    DiffInv t1 t2 users0 i1 i2 (threadStep t1 s1 users).1 s2
      (threadStep t1 s1 users).2 := by
  obtain ⟨hi1, hi2, hd⟩ := hinv
  by_cases hpc0 : s1.pc = 0
  · unfold threadStep
    rw [if_pos hpc0]
    dsimp only
    refine ⟨?_, hi2, ?_⟩
    · intro _
      show findIndexJs (fun u => u.id == t1.targetId) users = some i1
      rcases hd with h | h | h | h
      · rw [h.1]; exact hf1
      · rw [h.1, findIndexJs_setRole users0 i1 _ _ hl1]; exact hf1
      · rw [h.1, findIndexJs_setRole users0 i2 _ _ hl2]; exact hf1
      · rw [h.1, diff_find_stable users0 i1 i2 _ _ _ hl1 hl2]; exact hf1
    · rcases hd with h | h | h | h
      · exact Or.inl ⟨h.1, by simp, h.2.2⟩
      · exact absurd h.2.1 (by omega)
      · exact Or.inr (Or.inr (Or.inl ⟨h.1, by simp, h.2.2⟩))
      · exact absurd h.2.1 (by omega)
  · by_cases hpc1 : s1.pc = 1
    · have hidx := hi1 hpc1
      unfold threadStep
      rw [if_neg hpc0, if_pos hpc1, hidx]
      dsimp only
      refine ⟨?_, hi2, ?_⟩
      · intro hcon
        simp at hcon
      · rcases hd with h | h | h | h
        · exact Or.inr (Or.inl ⟨by rw [h.1], by simp, h.2.2⟩)
        · exact absurd h.2.1 (by omega)
        · refine Or.inr (Or.inr (Or.inr ⟨?_, by simp, h.2.2⟩))
          rw [h.1]
          exact setRole_comm users0 i2 i1 _ _ (Ne.symm hne) hl2 hl1
        · exact absurd h.2.1 (by omega)
    · unfold threadStep
      rw [if_neg hpc0, if_neg hpc1]
      exact ⟨hi1, hi2, hd⟩

theorem diff_step2 (t1 t2 : RoleWriteThread) (users0 : List User) (i1 i2 : Nat)
    (hf2 : findIndexJs (fun u => u.id == t2.targetId) users0 = some i2)
    (hl1 : i1 < users0.length) (hl2 : i2 < users0.length)
    (s1 s2 : ThreadState) (users : List User)
    (hinv : DiffInv t1 t2 users0 i1 i2 s1 s2 users) :
    DiffInv t1 t2 users0 i1 i2 s1 (threadStep t2 s2 users).1
      (threadStep t2 s2 users).2 := by
  obtain ⟨hi1, hi2, hd⟩ := hinv
  by_cases hpc0 : s2.pc = 0
  · unfold threadStep
    rw [if_pos hpc0]
    dsimp only
    refine ⟨hi1, ?_, ?_⟩
    · intro _
      show findIndexJs (fun u => u.id == t2.targetId) users = some i2
      rcases hd with h | h | h | h
      · rw [h.1]; exact hf2
      · rw [h.1, findIndexJs_setRole users0 i1 _ _ hl1]; exact hf2
      · rw [h.1, findIndexJs_setRole users0 i2 _ _ hl2]; exact hf2
      · rw [h.1, diff_find_stable users0 i1 i2 _ _ _ hl1 hl2]; exact hf2
    · rcases hd with h | h | h | h
      · exact Or.inl ⟨h.1, h.2.1, by simp⟩
      · exact Or.inr (Or.inl ⟨h.1, h.2.1, by simp⟩)
      · exact absurd h.2.2 (by omega)
      · exact absurd h.2.2 (by omega)
  · by_cases hpc1 : s2.pc = 1
    · have hidx := hi2 hpc1
      unfold threadStep
      rw [if_neg hpc0, if_pos hpc1, hidx]
      dsimp only
      refine ⟨hi1, ?_, ?_⟩
      · intro hcon
        simp at hcon
      · rcases hd with h | h | h | h
        · exact Or.inr (Or.inr (Or.inl ⟨by rw [h.1], h.2.1, by simp⟩))
        · exact Or.inr (Or.inr (Or.inr ⟨by rw [h.1], h.2.1, by simp⟩))
        · exact absurd h.2.2 (by omega)
        · exact absurd h.2.2 (by omega)
    · unfold threadStep
      rw [if_neg hpc0, if_neg hpc1]
      exact ⟨hi1, hi2, hd⟩

theorem runSched_diff (t1 t2 : RoleWriteThread) (users0 : List User) (i1 i2 : Nat)
    (hf1 : findIndexJs (fun u => u.id == t1.targetId) users0 = some i1)
    (hf2 : findIndexJs (fun u => u.id == t2.targetId) users0 = some i2)
    (hl1 : i1 < users0.length) (hl2 : i2 < users0.length) (hne : i1 ≠ i2) :
    ∀ (sched : List Bool) (s1 s2 : ThreadState) (users : List User),
      DiffInv t1 t2 users0 i1 i2 s1 s2 users →
      DiffInv t1 t2 users0 i1 i2
        (runSched t1 t2 sched s1 s2 users).1
        (runSched t1 t2 sched s1 s2 users).2.1
        (runSched t1 t2 sched s1 s2 users).2.2 := by
  intro sched
  induction sched with
  | nil => intro s1 s2 users h; exact h
  | cons b rest ih =>
      intro s1 s2 users h
      cases b
      · exact ih _ _ _ (diff_step2 t1 t2 users0 i1 i2 hf2 hl1 hl2 s1 s2 users h)
      · exact ih _ _ _ (diff_step1 t1 t2 users0 i1 i2 hf1 hl1 hl2 hne s1 s2 users h)

/-! ## Claim C8 -/

/-- C8: Concurrent `changeRole` mutations, interleaved arbitrarily at
the granularity of their table-touching steps (strictly finer than the
Node.js event loop under which each synchronous handler is atomic): once
both threads have run to completion, (a) against the *same* user record the
final table is the original with that record's role set to one of the two
attempted target roles — no lost update can manufacture a third value —
and (b) against *different* user records neither thread blocks or disturbs
the other: both writes land in every schedule. -/
theorem role_change_no_lost_update (t1 t2 : RoleWriteThread) (users0 : List User)
    (sched : List Bool) (hc1 : 2 ≤ sched.count true) (hc2 : 2 ≤ sched.count false) :
    (∀ uid i0, t1.targetId = uid → t2.targetId = uid →
       findIndexJs (fun u => u.id == uid) users0 = some i0 →
       ((runSched t1 t2 sched initThread initThread users0).2.2 =
           setRole users0 i0 t1.newRole ∨
        (runSched t1 t2 sched initThread initThread users0).2.2 =
           setRole users0 i0 t2.newRole)) ∧
    (∀ i1 i2, t1.targetId ≠ t2.targetId →
       findIndexJs (fun u => u.id == t1.targetId) users0 = some i1 →
       findIndexJs (fun u => u.id == t2.targetId) users0 = some i2 →
       (runSched t1 t2 sched initThread initThread users0).2.2 =
         setRole (setRole users0 i1 t1.newRole) i2 t2.newRole) := by
  have hp1 := runSched_pc1 t1 t2 sched initThread initThread users0
  have hp2 := runSched_pc2 t1 t2 sched initThread initThread users0
  have hz : initThread.pc = 0 := rfl
  have hpcf1 : 2 ≤ (runSched t1 t2 sched initThread initThread users0).1.pc := by
    omega
  have hpcf2 : 2 ≤ (runSched t1 t2 sched initThread initThread users0).2.1.pc := by
    omega
  constructor
  · intro uid i0 h1 h2 hfind
    obtain ⟨hlen, -⟩ := findIndexJs_some _ _ _ hfind
    have hinv0 : SameUserInv t1 t2 users0 i0 initThread initThread users0 :=
      ⟨fun h => absurd h (by decide), fun h => absurd h (by decide),
       Or.inl ⟨rfl, by decide, by decide⟩⟩
    obtain ⟨-, -, hd⟩ :=
      runSched_sameUser t1 t2 uid users0 i0 h1 h2 hfind hlen sched
        initThread initThread users0 hinv0
    rcases hd with h | h | h
    · exact absurd h.2.1 (by omega)
    · exact Or.inl h.1
    · exact Or.inr h.1
  · intro i1 i2 hne hf1 hf2
    obtain ⟨hl1, hg1⟩ := findIndexJs_some _ _ _ hf1
    obtain ⟨hl2, hg2⟩ := findIndexJs_some _ _ _ hf2
    have hne12 : i1 ≠ i2 := by
      intro he
      subst he
      apply hne
      have e1 : (users0.get ⟨i1, hl1⟩).id = t1.targetId := by simpa using hg1
      have e2 : (users0.get ⟨i1, hl2⟩).id = t2.targetId := by simpa using hg2
      rw [← e1, ← e2]
    have hinv0 : DiffInv t1 t2 users0 i1 i2 initThread initThread users0 :=
      ⟨fun h => absurd h (by decide), fun h => absurd h (by decide),
       Or.inl ⟨rfl, by decide, by decide⟩⟩
    obtain ⟨-, -, hd⟩ :=
      runSched_diff t1 t2 users0 i1 i2 hf1 hf2 hl1 hl2 hne12 sched
        initThread initThread users0 hinv0
    rcases hd with h | h | h | h
    · exact absurd h.2.1 (by omega)
    · exact absurd h.2.2 (by omega)
    · exact absurd h.2.1 (by omega)
    · exact h.1

/-- Witness for C8: two admins concurrently retarget user 2 (the final
role is one of the two attempted values), and two mutations of users 2 and
3 both land, under the alternating schedule. -/
theorem role_change_no_lost_update_witness :
    ((runSched ⟨2, "VIEWER"⟩ ⟨2, "ADMIN"⟩ [true, false, true, false]
        initThread initThread (seedUsers id)).2.2 =
          setRole (seedUsers id) 1 "VIEWER" ∨
     (runSched ⟨2, "VIEWER"⟩ ⟨2, "ADMIN"⟩ [true, false, true, false]
        initThread initThread (seedUsers id)).2.2 =
          setRole (seedUsers id) 1 "ADMIN") ∧
    (runSched ⟨2, "VIEWER"⟩ ⟨3, "VIEWER"⟩ [true, false, true, false]
        initThread initThread (seedUsers id)).2.2 =
      setRole (setRole (seedUsers id) 1 "VIEWER") 2 "VIEWER" := by
  have ha := role_change_no_lost_update ⟨2, "VIEWER"⟩ ⟨2, "ADMIN"⟩ (seedUsers id)
    [true, false, true, false] (by decide) (by decide)
  have hb := role_change_no_lost_update ⟨2, "VIEWER"⟩ ⟨3, "VIEWER"⟩ (seedUsers id)
    [true, false, true, false] (by decide) (by decide)
  exact ⟨ha.1 2 1 rfl rfl (by decide), hb.2 1 2 (by decide) (by decide) (by decide)⟩

end RBAC
